import Mathlib

/-!
Verification development for the github-rag-demo repository.

The definitions below are a shallow embedding of the JavaScript source:
pure functions become Lean functions, stateful services become explicit
state passing, asynchronous fallible calls become `Except`-valued oracles
passed in as parameters, and the unbounded retry recursion of
`QdrantService.upsertDocument` is modelled with explicit fuel (a `none`
result means the recursion was still running when the fuel ran out).
External collaborators (the JSON serializer built into the runtime, the
Qdrant search endpoint, the langchain `TokenTextSplitter`) are modelled
from their documented contracts where their code is not part of the
repository; each such definition is marked in its doc comment.
-/

/-! ## A model of JSON values and of `JSON.stringify`

`QdrantService.upsertDocument` computes
`JSON.stringify({ id, vector, payload }).length` and stores it in the
point payload under `_size`.  We model JSON values with numbers carried
as their printed literal (number-to-string formatting is done by the
float printer of the runtime, which is outside the scope of this model). -/

inductive JsonVal where
  | jnum (lit : String)
  | jstr (s : String)
  | jbool (b : Bool)
  | jarr (elems : List JsonVal)
  | jobj (fields : List (String × JsonVal))

/-- One hex digit, used by the `\uXXXX` escapes of `JSON.stringify`. -/
def hexDigit (n : Nat) : Char :=
  if n < 10 then Char.ofNat (48 + n) else Char.ofNat (87 + n)

/-- Four-hex-digit rendering of a code point below 0x10000. -/
def hex4 (n : Nat) : String :=
  String.mk [hexDigit (n / 4096 % 16), hexDigit (n / 256 % 16),
             hexDigit (n / 16 % 16), hexDigit (n % 16)]

/-- Escaping of one character inside a JSON string literal, as
`JSON.stringify` performs it. -/
def jsonEscapeChar (c : Char) : String :=
  if c = '"' then "\\\""
  else if c = '\\' then "\\\\"
  else if c = '\n' then "\\n"
  else if c = '\t' then "\\t"
  else if c = '\r' then "\\r"
  else if c = '\x08' then "\\b"
  else if c = '\x0c' then "\\f"
  else if c.toNat < 32 then "\\u" ++ hex4 c.toNat
  else String.singleton c

/-- A JSON string literal: quotes around the escaped characters. -/
def jsonQuote (s : String) : String :=
  "\"" ++ String.join (s.data.map jsonEscapeChar) ++ "\""

mutual

/-- Model of `JSON.stringify` on the `JsonVal` model above. -/
def jstringify : JsonVal → String
  | .jnum lit => lit
  | .jstr s => jsonQuote s
  | .jbool b => if b then "true" else "false"
  | .jarr xs => "[" ++ jstringifyElems xs ++ "]"
  | .jobj fs => "\x7b" ++ jstringifyFields fs ++ "\x7d"

/-- Comma-separated serialization of array elements. -/
def jstringifyElems : List JsonVal → String
  | [] => ""
  | [x] => jstringify x
  | x :: y :: xs => jstringify x ++ "," ++ jstringifyElems (y :: xs)

/-- Comma-separated serialization of object fields. -/
def jstringifyFields : List (String × JsonVal) → String
  | [] => ""
  | [(k, v)] => jsonQuote k ++ ":" ++ jstringify v
  | (k, v) :: f :: fs => jsonQuote k ++ ":" ++ jstringify v ++ "," ++ jstringifyFields (f :: fs)

end

/-! ## `src/utils.js`: file extension filtering

`getFileExtension` is `path.extname(filename).toLowerCase()`.  We embed
the POSIX `path.extname` of Node faithfully, including its right-to-left scan
with the `preDotState` bookkeeping that makes `extname(".bashrc") = ""`
and `extname("..") = ""`. -/

/-- Scanner state of the `path.extname` loop of Node. -/
structure ExtScan where
  startDot : Int
  startPart : Nat
  endIdx : Int
  matchedSlash : Bool
  preDotState : Int
deriving Repr, DecidableEq

/-- The right-to-left scan of the `path.extname` of Node: the `Nat` argument
is one past the index of the character examined next. -/
def extnameGo (cs : List Char) : Nat → ExtScan → ExtScan
  | 0, s => s
  | i + 1, s =>
    let c := cs.getD i ' '
    if c = '/' then
      if !s.matchedSlash then { s with startPart := i + 1 }
      else extnameGo cs i s
    else
      let s1 := if s.endIdx = -1 then { s with matchedSlash := false, endIdx := (i : Int) + 1 } else s
      let s2 :=
        if c = '.' then
          if s1.startDot = -1 then { s1 with startDot := (i : Int) }
          else if s1.preDotState ≠ 1 then { s1 with preDotState := 1 } else s1
        else if s1.startDot ≠ -1 then { s1 with preDotState := -1 } else s1
      extnameGo cs i s2

/-- Model of the POSIX `path.extname` of Node. -/
def extname (p : String) : String :=
  let cs := p.data
  let s := extnameGo cs cs.length ⟨-1, 0, -1, true, 0⟩
  if s.startDot = -1 ∨ s.endIdx = -1 ∨ s.preDotState = 0 ∨
      (s.preDotState = 1 ∧ s.startDot = s.endIdx - 1 ∧ s.startDot = (s.startPart : Int) + 1)
  then ""
  else String.mk ((cs.drop s.startDot.toNat).take (s.endIdx - s.startDot).toNat)

/-- ASCII lowering of one character, the fragment of
`String.prototype.toLowerCase` exercised by file extensions. -/
def jsLowerChar (c : Char) : Char :=
  if 'A' ≤ c ∧ c ≤ 'Z' then Char.ofNat (c.toNat + 32) else c

/-- ASCII fragment of `String.prototype.toLowerCase`. -/
def jsToLowerCase (s : String) : String :=
  String.mk (s.data.map jsLowerChar)

/-- `getFileExtension` from `src/utils.js`. -/
def getFileExtension (filename : String) : String :=
  jsToLowerCase (extname filename)

/-- `FILE_EXTENSIONS.code` from `src/utils.js`. -/
def FILE_EXTENSIONS_code : List String :=
  [".js", ".ts", ".jsx", ".tsx", ".html", ".css", ".py", ".java", ".go", ".rs",
   ".c", ".cpp", ".h"]

/-- `FILE_EXTENSIONS.docs` from `src/utils.js`. -/
def FILE_EXTENSIONS_docs : List String :=
  [".md", ".txt", ".rst"]

/-- `FILE_EXTENSIONS.exclude` from `src/utils.js`. -/
def FILE_EXTENSIONS_exclude : List String :=
  [".git", "node_modules", "__pycache__", "venv", "dist", "build"]

/-- `shouldProcessFile` from `src/utils.js`. -/
def shouldProcessFile (filePath : String) : Bool :=
  (FILE_EXTENSIONS_code ++ FILE_EXTENSIONS_docs).contains (getFileExtension filePath)

/-- `shouldExcludeDirectory` from `src/utils.js`. -/
def shouldExcludeDirectory (dirName : String) : Bool :=
  FILE_EXTENSIONS_exclude.contains dirName

/-! ## `QdrantService` (src/unnamed/part_000): collection lifecycle

The vector store behind `this.client` is external.  For claims about the
resulting collection state we give it the documented key-value semantics
(named collections holding points; `deleteCollection` fails when the
collection is absent, `createCollection` fails when it is present).  For
the claim that `initializeCollection` swallows every client failure we
separately model the two client calls as arbitrary `Except` outcomes. -/

/-- A stored point: Qdrant id, vector and payload. -/
structure QPoint where
  id : Nat
  vector : List Int
  payload : List (String × JsonVal)

/-- The data of a named collection: dimensionality, distance, points. -/
structure CollectionData where
  vectorSize : Nat
  distance : String
  points : List QPoint

/-- The store: an association of collection names to their data. -/
abbrev QdrantStore := List (String × CollectionData)

/-- Modelled from the spec: `client.deleteCollection` on the wire
contract of the store — deleting an absent collection is the failure
that `initializeCollection` logs as `Aucune collection existante à
supprimer`. -/
def deleteCollection (st : QdrantStore) (collectionName : String) : Except String QdrantStore :=
  if (st.lookup collectionName).isSome then
    .ok (st.filter fun p => p.1 ≠ collectionName)
  else
    .error "collection not found"

/-- Modelled from the spec: `client.createCollection` with
`vectors/size/distance:Cosine` — creating an existing collection fails. -/
def createCollection (st : QdrantStore) (collectionName : String) (vectorSize : Nat) :
    Except String QdrantStore :=
  if (st.lookup collectionName).isSome then
    .error "collection already exists"
  else
    .ok ((collectionName, ⟨vectorSize, "Cosine", []⟩) :: st)

/-- `QdrantService.initializeCollection` from src/unnamed/part_000 over
the store semantics: try delete (swallow failure), then try create
(swallow failure). -/
def initializeCollection (st : QdrantStore) (collectionName : String)
    (vectorSize : Nat := 1024) : QdrantStore :=
  let st1 := match deleteCollection st collectionName with
    | .ok s => s
    | .error _ => st
  match createCollection st1 collectionName vectorSize with
  | .ok s => s
  | .error _ => st1

/-- Logs emitted by `initializeCollection`. -/
def initializeCollectionLogs (d c : Except String Unit) : List String :=
  (match d with
    | .ok _ => ["Collection existante supprimée"]
    | .error _ => ["Aucune collection existante à supprimer"]) ++
  (match c with
    | .ok _ => []
    | .error m => ["Collection existe déjà ou erreur: " ++ m])

/-- `QdrantService.initializeCollection` from src/unnamed/part_000 with
both client calls replaced by arbitrary outcomes `d` and `c`: each call
sits in its own try/catch whose handler only logs, so the own
result is `.ok` of the logs no matter how the client calls end. -/
def initializeCollectionE (d c : Except String Unit) : Except String (List String) :=
  match d with
  | .ok _ =>
    (match c with
      | .ok _ => .ok (initializeCollectionLogs d c)
      | .error _ => .ok (initializeCollectionLogs d c))
  | .error _ =>
    (match c with
      | .ok _ => .ok (initializeCollectionLogs d c)
      | .error _ => .ok (initializeCollectionLogs d c))

/-! ## `QdrantService.upsertDocument` (src/unnamed/part_000)

The method computes the serialized size, warns above 10000, waits 100 ms,
calls `client.upsert`, and on an error whose `cause.code` is
`UND_ERR_SOCKET` waits 2000 ms and calls itself again; every other error
is rethrown wrapped as `Erreur upsert: …`.  The outcome of the client call at
each attempt is an oracle; the self-recursion gets explicit fuel, and the
observable behaviour (waits, attempts, warnings) is recorded as a trace.
A `Float32Array` has no `toJSON`, so `JSON.stringify` serializes it as an
object with index keys; its elements enter the model as their printed
number literals. -/

/-- Outcome of one `client.upsert` network attempt. -/
inductive UOutcome where
  | ok
  | transient
  | fatal (msg : String)
deriving Repr, DecidableEq

/-- Observable events of an `upsertDocument` call. -/
inductive UEvent where
  | wait (ms : Nat)
  | attempt (i : Nat)
  | warnLarge (size : Nat)
deriving Repr, DecidableEq

/-- The events one entry into `upsertDocument` emits before its
`client.upsert` call returns: the size warning when over 10000, the
100 ms pacing delay, then attempt number `i`. -/
def attemptEvents (sz i : Nat) : List UEvent :=
  (if sz > 10000 then [.warnLarge sz] else []) ++ [.wait 100, .attempt i]

/-- The retry recursion of `upsertDocument`: attempt `i`; on `.ok` or
`.fatal` stop, on `.transient` wait 2000 ms and re-enter.  Fuel bounds
the modelled recursion depth; `none` means the fuel ran out with the
recursion still retrying. -/
def upsertGo (oracle : Nat → UOutcome) (sz : Nat) :
    Nat → Nat → Option (List UEvent × Except String Unit)
  | 0, _ => none
  | fuel + 1, i =>
    match oracle i with
    | .ok => some (attemptEvents sz i, .ok ())
    | .fatal msg => some (attemptEvents sz i, .error ("Erreur upsert: " ++ msg))
    | .transient =>
      match upsertGo oracle sz fuel (i + 1) with
      | none => none
      | some (evs, r) => some (attemptEvents sz i ++ .wait 2000 :: evs, r)

/-- How `JSON.stringify` sees a `Float32Array`: an object keyed by the
element indices (typed arrays have no `toJSON`). -/
def float32ArrayJson (v : List String) : JsonVal :=
  .jobj (v.enum.map fun p => (toString p.1, JsonVal.jnum p.2))

/-- `const dataSize = JSON.stringify({ id, vector, payload }).length`. -/
def dataSize (id : JsonVal) (vector : List String) (payload : List (String × JsonVal)) : Nat :=
  (jstringify (.jobj [("id", id), ("vector", float32ArrayJson vector),
                      ("payload", .jobj payload)])).length

/-- The JavaScript spread `{ ...payload, _size: v }`: replace the field
in place when present, append it otherwise. -/
def setField (fs : List (String × JsonVal)) (k : String) (v : JsonVal) :
    List (String × JsonVal) :=
  if fs.any fun p => p.1 == k then
    fs.map fun p => if p.1 == k then (k, v) else p
  else fs ++ [(k, v)]

/-- The point sent to `client.upsert`. -/
structure QUpsertPoint where
  id : JsonVal
  vector : List String
  payload : List (String × JsonVal)

/-- `QdrantService.upsertDocument` from src/unnamed/part_000: compute
the size, run the retry recursion, and on success report the stored
point, whose payload is the input payload with `_size` attached. -/
def upsertDocument (oracle : Nat → UOutcome) (fuel : Nat) (id : JsonVal)
    (vector : List String) (payload : List (String × JsonVal)) :
    Option (List UEvent × Except String QUpsertPoint) :=
  let sz := dataSize id vector payload
  match upsertGo oracle sz fuel 0 with
  | none => none
  | some (evs, .ok ()) =>
    some (evs, .ok ⟨id, vector, setField payload "_size" (.jnum (toString sz))⟩)
  | some (evs, .error m) => some (evs, .error m)

/-- Number of network attempts recorded in a trace. -/
def countAttempts (evs : List UEvent) : Nat :=
  evs.countP fun e => match e with
    | .attempt _ => true
    | _ => false

/-- The trace of a run whose attempts `i, i+1, …, i+k` all but the last
hit a transient socket error: the events of each attempt, separated by the
2000 ms backoff waits. -/
def retryTraceFrom (sz i : Nat) : Nat → List UEvent
  | 0 => attemptEvents sz i
  | k + 1 => attemptEvents sz i ++ .wait 2000 :: retryTraceFrom sz (i + 1) k

/-! ## `QdrantService.searchSimilar` (src/unnamed/part_000)

The method forwards to `client.search` with `with_payload: true` and
rethrows any error after logging it.  The ranking itself happens inside
the Qdrant server; we model its wire contract (cosine scores — on
normalized vectors the dot product — sorted descending, truncated to
`limit`, payload returned verbatim).  A search against a nonexistent
collection is an error from the server, which the catch block rethrows
unchanged. -/

/-- One search result: score plus the stored payload. -/
structure QSearchHit where
  score : Int
  payload : List (String × JsonVal)

/-- Dot product of two vectors, the cosine score on normalized input. -/
def dotProduct : List Int → List Int → Int
  | x :: xs, y :: ys => x * y + dotProduct xs ys
  | _, _ => 0

/-- Modelled from the spec: the search of the Qdrant server over a
points of a collection — score every point against the query, sort by
descending score, keep `limit`, attach the payload verbatim. -/
def qdrantSearch (points : List QPoint) (vector : List Int) (limit : Nat) :
    List QSearchHit :=
  ((points.map fun p => QSearchHit.mk (dotProduct vector p.vector) p.payload).mergeSort
      fun a b => decide (b.score ≤ a.score)).take limit

/-- `QdrantService.searchSimilar` from src/unnamed/part_000: look the
collection up; a missing collection is a server error that the catch
block rethrows to the caller; otherwise return the results of the server. -/
def searchSimilar (st : QdrantStore) (collectionName : String) (vector : List Int)
    (limit : Nat := 5) : Except String (List QSearchHit) :=
  match st.lookup collectionName with
  | none => .error "collection not found"
  | some c => .ok (qdrantSearch c.points vector limit)

/-! ## `DocumentProcessor.processDocuments` (src/services/llm.js)

`processDocuments` builds a `TokenTextSplitter` with `chunkSize: 1000`
and `chunkOverlap: 200` and pushes every split of every document.  The
window loop lives in langchain, not in this repository; it is modelled
from the spec: emit consecutive `chunkSize`-token windows whose starts
advance by `chunkSize − chunkOverlap`, stopping with a final, possibly
shorter window once the remainder is covered.  Token sequences are kept
abstract (`List α`). -/

/-- A langchain document: `pageContent` (as tokens) plus metadata. -/
structure SrcDocument (α μ : Type) where
  pageContent : List α
  metadata : μ
deriving DecidableEq

/-- Modelled from the spec: the window loop of `TokenTextSplitter`.
Fuel makes the recursion structural; `splitTokens` supplies enough. -/
def splitWindowsGo (chunkSize step : Nat) : Nat → List α → List (List α)
  | 0, xs => [xs]
  | fuel + 1, xs =>
    if xs.length ≤ chunkSize then [xs]
    else xs.take chunkSize :: splitWindowsGo chunkSize step fuel (xs.drop step)

/-- Modelled from the spec: `TokenTextSplitter.splitText` over an
already-tokenized document. -/
def splitTokens (xs : List α) (chunkSize chunkOverlap : Nat) : List (List α) :=
  splitWindowsGo chunkSize (chunkSize - chunkOverlap) xs.length xs

/-- `DocumentProcessor.processDocuments` from src/services/llm.js:
split every document with chunkSize 1000 / overlap 200, each split
carrying the metadata of the source document. -/
def processDocuments (docs : List (SrcDocument α μ)) : List (SrcDocument α μ) :=
  docs.flatMap fun d => (splitTokens d.pageContent 1000 200).map fun w => ⟨w, d.metadata⟩

/-! ## `CodeIndexer.indexRepositories` (src/unnamed/part_004)

Each configured repository is validated (`validateRepoConfig` is the
JavaScript truthiness of `repo?.url && repo?.name`), then indexed inside
a try/catch that logs and moves on.  The behaviour of `indexRepository` for a
given repository — clone/update, traversal, file processing, any of
which may throw — is an oracle. -/

/-- A `GITHUB_REPOS` entry; absent fields are `none`. -/
structure RepoConfig where
  name : Option String
  url : Option String
deriving Repr, DecidableEq

/-- JavaScript truthiness of an optional string: `undefined` and the
empty string are falsy. -/
def jsTruthy : Option String → Bool
  | none => false
  | some s => !s.isEmpty

/-- `CodeIndexer.validateRepoConfig`: `repo?.url && repo?.name`. -/
def validateRepoConfig (repo : RepoConfig) : Bool :=
  jsTruthy repo.url && jsTruthy repo.name

/-- Log lines of one `indexRepositories` run. -/
inductive IndexLog where
  | skipInvalid (repo : RepoConfig)
  | indexedOk (name : String) (count : Nat)
  | indexFailed (name : String) (msg : String)
deriving Repr, DecidableEq

/-- The loop body of `CodeIndexer.indexRepositories` for one repository:
skip-and-warn on an invalid config; otherwise run `indexRepository`
(the oracle `run`, taking url and name) inside the try/catch. -/
def indexOne (run : String → String → Except String (List δ)) (repo : RepoConfig) :
    List δ × List IndexLog :=
  if validateRepoConfig repo then
    match run (repo.url.getD "") (repo.name.getD "") with
    | .ok docs => (docs, [.indexedOk (repo.name.getD "") docs.length])
    | .error m => ([], [.indexFailed (repo.name.getD "") m])
  else ([], [.skipInvalid repo])

/-- `CodeIndexer.indexRepositories` from src/unnamed/part_004: fold the
loop body over the configured repositories, accumulating `allDocuments`
and the log. -/
def indexRepositories (run : String → String → Except String (List δ)) :
    List RepoConfig → List δ × List IndexLog
  | [] => ([], [])
  | repo :: rest =>
    ((indexOne run repo).1 ++ (indexRepositories run rest).1,
     (indexOne run repo).2 ++ (indexRepositories run rest).2)

/-! ## The query paths: `src/server.js` `/ask` and `src/ask.js`

Both embed the question, search `github_code`, build a context string
from the results and call the generation service.  The HTTP handler
checks `!searchResults?.length` and answers 404 before generating; the
CLI handler has no such check and proceeds with whatever context the
(possibly empty) result list produces.  Embedding, search and generation
are `Except`-valued oracles; the `Bool`/`Option` components record
whether and with which context the generation service was called. -/

/-- A search result as the query path consumes it: the payload fields
`repo`, `path`, `content` written during indexing. -/
structure AskResult where
  repo : String
  path : String
  content : String
deriving Repr, DecidableEq

/-- Context block construction of `src/server.js` (`File:`/`Content:`
blocks joined by blank lines). -/
def buildContextServer (results : List AskResult) : String :=
  String.intercalate "\n\n" (results.map fun r =>
    "File: " ++ r.repo ++ "/" ++ r.path ++ "\n\nContent:\n" ++ r.content ++ "\n---")

/-- Context block construction of `src/ask.js` (`Fichier:`/`Contenu:`
blocks joined by blank lines). -/
def buildContextCli (results : List AskResult) : String :=
  String.intercalate "\n\n" (results.map fun r =>
    "Fichier: " ++ r.repo ++ "/" ++ r.path ++ "\n\nContenu:\n" ++ r.content ++ "\n---")

/-- The JavaScript whitespace test for `String.prototype.trim`, on the
characters that matter here. -/
def jsWhitespace (c : Char) : Bool :=
  c == ' ' || c == '\t' || c == '\n' || c == '\r' || c == '\x0b' || c == '\x0c'

/-- Model of `String.prototype.trim`. -/
def jsTrim (s : String) : String :=
  String.mk (((s.data.dropWhile jsWhitespace).reverse.dropWhile jsWhitespace).reverse)

/-- The HTTP responses the `/ask` handler can produce. -/
inductive AskResponse where
  | badRequest
  | notFound
  | okAnswer (answer context : String)
  | serverError (msg : String)
deriving Repr, DecidableEq

/-- HTTP status of each `/ask` response. -/
def statusOf : AskResponse → Nat
  | .badRequest => 400
  | .notFound => 404
  | .okAnswer _ _ => 200
  | .serverError _ => 500

/-- The `/ask` route handler from src/server.js: validate the question, embed
it, search, 404 on an empty result list, otherwise build the context and
generate; any thrown error becomes the 500 branch.  The second component
records whether the generation service was called. -/
def askHandler (question : Option String) (embedOutcome : Except String (List Int))
    (search : List Int → Nat → Except String (List AskResult))
    (generate : String → String → Except String String) : AskResponse × Bool :=
  match question with
  | none => (.badRequest, false)
  | some q =>
    if (jsTrim q).isEmpty then (.badRequest, false)
    else
      match embedOutcome with
      | .error m => (.serverError m, false)
      | .ok v =>
        match search v 5 with
        | .error m => (.serverError m, false)
        | .ok results =>
          if results.length = 0 then (.notFound, false)
          else
            match generate q (buildContextServer results) with
            | .error m => (.serverError m, true)
            | .ok answer => (.okAnswer answer (buildContextServer results), true)

/-- Outcome record of one `handleQuestion` round in src/ask.js. -/
structure CliResult where
  llmCalled : Bool
  contextArg : Option String
  errorLogged : Bool
deriving Repr, DecidableEq

/-- `handleQuestion` from src/ask.js (one round, question ≠ `exit`):
embed, search, build the context from whatever results came back —
without any emptiness check — and call the generation service; a thrown
error is caught and logged. -/
def handleQuestion (question : String) (embedOutcome : Except String (List Int))
    (search : List Int → Except String (List AskResult))
    (generate : String → String → Except String String) : CliResult :=
  match embedOutcome with
  | .error _ => ⟨false, none, true⟩
  | .ok v =>
    match search v with
    | .error _ => ⟨false, none, true⟩
    | .ok results =>
      match generate question (buildContextCli results) with
      | .error _ => ⟨true, some (buildContextCli results), true⟩
      | .ok _ => ⟨true, some (buildContextCli results), false⟩

/-! ## `DocumentProcessor.initialize` / `isReady` (src/services/llm.js)

The observable state of the processor is the pair
`(this.isInitialized, this.embedder)`; the `pipeline(...)` model load is
an oracle.  `initialize` returns immediately when `isInitialized` is
already set; otherwise it loads, stores the embedder and flips the flag,
or rethrows a load failure with both fields untouched. -/

/-- Observable `DocumentProcessor` state. -/
structure DPState where
  isInitialized : Bool
  embedder : Option Nat
deriving Repr, DecidableEq

/-- What one `initialize` call did: the state afterwards, the own
outcome, and whether `pipeline(...)` was invoked. -/
structure InitOutcome where
  state : DPState
  result : Except String Unit
  loaded : Bool
deriving Repr

/-- `DocumentProcessor.initialize` from src/services/llm.js with the
`pipeline(..feature-extraction..)` call as the oracle `load`. -/
def initializeProcessor (load : Except String Nat) (s : DPState) : InitOutcome :=
  if s.isInitialized then ⟨s, .ok (), false⟩
  else
    match load with
    | .ok e => ⟨⟨true, some e⟩, .ok (), true⟩
    | .error _ => ⟨s, .error "Embedding model initialization failed", true⟩

/-- `DocumentProcessor.isReady` from src/services/llm.js:
`this.isInitialized && this.embedder !== null`. -/
def isReady (s : DPState) : Bool :=
  s.isInitialized && s.embedder.isSome

example : extname "a/b.JS" = ".JS" := by decide

example : extname ".bashrc" = "" := by decide

example : extname ".." = "" := by decide

example : extname "a.." = "." := by decide

example : getFileExtension "src/app.JS" = ".js" := by decide

example : shouldProcessFile "README.md" = true := by decide

example : shouldProcessFile "photo.png" = false := by decide

example : jstringify (.jobj [("id", .jnum "1"), ("vector", .jobj []), ("payload", .jobj [])])
    = "\x7b\"id\":1,\"vector\":\x7b\x7d,\"payload\":\x7b\x7d\x7d" := by decide

/-- Claim C8: `shouldProcessFile(path)` returns true exactly when the
lowercased extension of the path belongs to the configured code or
documentation extension sets, and its result is a function of the
extension alone: two paths with equal extensions (whatever the file
contents, which are never consulted) get the same result. -/
theorem shouldProcessFile_ext_only :
    (∀ p : String, shouldProcessFile p = true ↔
      jsToLowerCase (extname p) ∈ FILE_EXTENSIONS_code ++ FILE_EXTENSIONS_docs) ∧
    (∀ p q : String, getFileExtension p = getFileExtension q →
      shouldProcessFile p = shouldProcessFile q) := by
  constructor
  · intro p
    simp [shouldProcessFile, getFileExtension, List.contains, List.elem_iff]
  · intro p q h
    simp [shouldProcessFile, h]

/-- Witness for C8 at concrete paths: `src/app.JS` and `b.js` share the
lowercased extension `.js`, which is in the code set, and the two calls
agree. -/
theorem shouldProcessFile_ext_only_witness :
    (shouldProcessFile "src/app.JS" = true ↔
      jsToLowerCase (extname "src/app.JS") ∈ FILE_EXTENSIONS_code ++ FILE_EXTENSIONS_docs) ∧
    shouldProcessFile "src/app.JS" = shouldProcessFile "b.js" :=
  ⟨shouldProcessFile_ext_only.1 "src/app.JS",
   shouldProcessFile_ext_only.2 "src/app.JS" "b.js" (by decide)⟩

/-- Looking a name up after filtering that name out finds nothing. -/
theorem lookup_filter_ne (st : QdrantStore) (n : String) :
    (st.filter fun p => p.1 ≠ n).lookup n = none := by
  simp
  exact fun a b _ hne hna => hne hna.symm

/-- Claim C3: from every prior store state — collection absent, present
and empty, or present and populated — `initializeCollection` leaves the
named collection existing with the requested vector size, cosine
distance, and zero points. -/
theorem initializeCollection_resets (st : QdrantStore) (collectionName : String)
    (vectorSize : Nat) :
    (initializeCollection st collectionName vectorSize).lookup collectionName =
      some ⟨vectorSize, "Cosine", []⟩ := by
  unfold initializeCollection
  by_cases h : (st.lookup collectionName).isSome
  · simp only [deleteCollection, h, if_true]
    have hnone := lookup_filter_ne st collectionName
    simp [createCollection, hnone, List.lookup]
  · simp only [deleteCollection, h, if_false]
    have hnone : st.lookup collectionName = none := by
      cases hl : st.lookup collectionName with
      | none => rfl
      | some v => rw [hl] at h; simp at h
    simp [createCollection, hnone, List.lookup]

/-- Claim C10: the part_000 `initializeCollection` never throws — for
every outcome of the underlying `deleteCollection` call and every
outcome of the underlying `createCollection` call (including a failing
create) the method returns normally, only logging; a create failure is
visible solely in the log line. -/
theorem initializeCollectionE_never_throws :
    (∀ d c : Except String Unit, initializeCollectionE d c = .ok (initializeCollectionLogs d c)) ∧
    (∀ d : Except String Unit, ∀ m : String,
      ("Collection existe déjà ou erreur: " ++ m) ∈ initializeCollectionLogs d (.error m)) := by
  constructor
  · intro d c
    cases d <;> cases c <;> rfl
  · intro d m
    cases d <;> simp [initializeCollectionLogs]

/-- Witness for C10: a failing delete followed by a failing create still
returns `.ok`, with the create failure logged. -/
theorem initializeCollectionE_never_throws_witness :
    initializeCollectionE (.error "down") (.error "boom") =
      .ok (initializeCollectionLogs (.error "down") (.error "boom")) ∧
    ("Collection existe déjà ou erreur: " ++ "boom") ∈
      initializeCollectionLogs (Except.error "down") (.error "boom") :=
  ⟨initializeCollectionE_never_throws.1 (.error "down") (.error "boom"),
   initializeCollectionE_never_throws.2 (.error "down") "boom"⟩

theorem countAttempts_attemptEvents (sz i : Nat) :
    countAttempts (attemptEvents sz i) = 1 := by
  by_cases h : sz > 10000 <;> simp [attemptEvents, countAttempts, h, List.countP_cons]

theorem countAttempts_retryTraceFrom (sz : Nat) :
    ∀ k i, countAttempts (retryTraceFrom sz i k) = k + 1 := by
  intro k
  induction k with
  | zero => intro i; exact countAttempts_attemptEvents sz i
  | succ k ih =>
    intro i
    have h1 := countAttempts_attemptEvents sz i
    simp only [retryTraceFrom, countAttempts, List.countP_append, List.countP_cons] at *
    simp [h1, ih (i + 1)]
    omega

theorem upsertGo_succ (oracle : Nat → UOutcome) (sz fuel i : Nat) :
    upsertGo oracle sz (fuel + 1) i =
      match oracle i with
      | .ok => some (attemptEvents sz i, .ok ())
      | .fatal msg => some (attemptEvents sz i, .error ("Erreur upsert: " ++ msg))
      | .transient =>
        match upsertGo oracle sz fuel (i + 1) with
        | none => none
        | some (evs, r) => some (attemptEvents sz i ++ .wait 2000 :: evs, r) := rfl

theorem upsertGo_retries (oracle : Nat → UOutcome) (sz : Nat) :
    ∀ k i, (∀ j, j < k → oracle (i + j) = .transient) → oracle (i + k) ≠ .transient →
      (oracle (i + k) = .ok →
        upsertGo oracle sz (k + 1) i = some (retryTraceFrom sz i k, .ok ())) ∧
      (∀ m, oracle (i + k) = .fatal m →
        upsertGo oracle sz (k + 1) i =
          some (retryTraceFrom sz i k, .error ("Erreur upsert: " ++ m))) := by
  intro k
  induction k with
  | zero =>
    intro i _ hk
    constructor
    · intro hok
      simp only [Nat.add_zero] at hok
      simp [upsertGo, hok, retryTraceFrom]
    · intro m hm
      simp only [Nat.add_zero] at hm
      simp [upsertGo, hm, retryTraceFrom]
  | succ k ih =>
    intro i hlt hk
    have h0 : oracle i = .transient := by
      have := hlt 0 (Nat.succ_pos k)
      simpa using this
    have hlt' : ∀ j, j < k → oracle ((i + 1) + j) = .transient := by
      intro j hj
      have := hlt (j + 1) (by omega)
      simpa [Nat.add_assoc, Nat.add_comm 1 j] using this
    have hk' : oracle ((i + 1) + k) ≠ .transient := by
      have : (i + 1) + k = i + (k + 1) := by omega
      rw [this]; exact hk
    have ihx := ih (i + 1) hlt' hk'
    constructor
    · intro hok
      have hok' : oracle ((i + 1) + k) = .ok := by
        have : (i + 1) + k = i + (k + 1) := by omega
        rw [this]; exact hok
      rw [upsertGo_succ, h0, ihx.1 hok']
      rfl
    · intro m hm
      have hm' : oracle ((i + 1) + k) = .fatal m := by
        have : (i + 1) + k = i + (k + 1) := by omega
        rw [this]; exact hm
      rw [upsertGo_succ, h0, ihx.2 m hm']
      rfl

/-- The field set by the JavaScript spread is found by lookup. -/
theorem lookup_setField (fs : List (String × JsonVal)) (k : String) (v : JsonVal) :
    (setField fs k v).lookup k = some v := by
  unfold setField
  by_cases h : fs.any fun p => p.1 == k
  · simp only [h, if_true]
    induction fs with
    | nil => simp at h
    | cons hd tl ih =>
      simp only [List.any_cons, Bool.or_eq_true] at h
      by_cases hh : hd.1 = k
      · have hb' : (hd.1 == k) = true := beq_iff_eq.mpr hh
        simp only [List.map_cons]
        rw [if_pos hb']
        simp [List.lookup]
      · have hb : (hd.1 == k) = false := beq_false_of_ne hh
        have htl : tl.any (fun p => p.1 == k) = true := by
          rcases h with h | h
          · rw [hb] at h; exact absurd h (by simp)
          · exact h
        have hkb : (k == hd.1) = false := beq_false_of_ne (fun he => hh he.symm)
        simp only [List.map_cons]
        rw [if_neg (by simp [hb])]
        simp [List.lookup, hkb]
        simpa using ih htl
  · have h' : fs.any (fun p => p.1 == k) = false := by
      cases hx : fs.any fun p => p.1 == k
      · rfl
      · exact absurd hx h
    simp only [h', if_false, Bool.false_eq_true]
    induction fs with
    | nil => simp [List.lookup]
    | cons hd tl ih =>
      simp only [List.any_cons, Bool.or_eq_false_iff] at h'
      have hkb : (k == hd.1) = false := by
        cases hx : k == hd.1
        · rfl
        · have : hd.1 = k := (beq_iff_eq.mp hx).symm
          rw [← this] at h'
          simpa using h'.1
      simp only [List.cons_append, List.lookup, hkb]
      exact ih (by simp [h'.2]) h'.2

/-- Counterexample for C1: the claim caps the number of network attempts
at two, but the catch block retries by calling `upsertDocument` again,
which retries again on the next transient error.  With transient socket
errors on the first two attempts and success on the third, the call
succeeds after three attempts — more than the two the claim allows. -/
theorem upsertDocument_counterexample :
    upsertDocument (fun i => if i < 2 then .transient else .ok) 3 (.jnum "1") [] [] =
      some ([.wait 100, .attempt 0, .wait 2000, .wait 100, .attempt 1, .wait 2000,
             .wait 100, .attempt 2],
            .ok ⟨.jnum "1", [], [("_size", .jnum "33")]⟩) ∧
    countAttempts [UEvent.wait 100, .attempt 0, .wait 2000, .wait 100, .attempt 1,
                   .wait 2000, .wait 100, .attempt 2] = 3 ∧
    ¬ countAttempts [UEvent.wait 100, .attempt 0, .wait 2000, .wait 100, .attempt 1,
                     .wait 2000, .wait 100, .attempt 2] ≤ 2 :=
  ⟨rfl, by decide, by decide⟩

/-- Claim C1 (amended): on each transient-socket failure
(`error.cause.code` equal to `UND_ERR_SOCKET`), `upsertDocument` waits the
longer 2000 ms backoff and re-enters itself, so attempts continue until
the first non-transient outcome rather than stopping after one retry:
with transient failures on attempts `0 … k−1` and a non-transient
outcome on attempt `k`, exactly `k+1` attempts occur, a success returns
the stored point and a non-transient failure is surfaced immediately —
wrapped as `Erreur upsert: …` — with no further attempt. -/
theorem upsertDocument_retry_amended (oracle : Nat → UOutcome) (k : Nat)
    (id : JsonVal) (vector : List String) (payload : List (String × JsonVal))
    (hlt : ∀ j, j < k → oracle j = .transient) (hk : oracle k ≠ .transient) :
    countAttempts (retryTraceFrom (dataSize id vector payload) 0 k) = k + 1 ∧
    (oracle k = .ok →
      upsertDocument oracle (k + 1) id vector payload =
        some (retryTraceFrom (dataSize id vector payload) 0 k,
              .ok ⟨id, vector, setField payload "_size"
                     (.jnum (toString (dataSize id vector payload)))⟩)) ∧
    (∀ m, oracle k = .fatal m →
      upsertDocument oracle (k + 1) id vector payload =
        some (retryTraceFrom (dataSize id vector payload) 0 k,
              .error ("Erreur upsert: " ++ m))) := by
  have hbase := upsertGo_retries oracle (dataSize id vector payload) k 0
    (by intro j hj; simpa using hlt j hj) (by simpa using hk)
  refine ⟨countAttempts_retryTraceFrom _ k 0, ?_, ?_⟩
  · intro hok
    have h1 := hbase.1 (by simpa using hok)
    simp only [upsertDocument, h1]
  · intro m hm
    have h2 := hbase.2 m (by simpa using hm)
    simp only [upsertDocument, h2]

/-- Witness for C1 (amended) at a fatal first attempt: one attempt, the
error surfaces wrapped, no retry. -/
theorem upsertDocument_retry_amended_witness :
    countAttempts (retryTraceFrom (dataSize (.jnum "1") [] []) 0 0) = 1 ∧
    upsertDocument (fun _ => .fatal "boom") 1 (.jnum "1") [] [] =
      some (retryTraceFrom (dataSize (.jnum "1") [] []) 0 0,
            .error ("Erreur upsert: " ++ "boom")) :=
  ⟨(upsertDocument_retry_amended (fun _ => .fatal "boom") 0 (.jnum "1") [] []
      (fun j hj => absurd hj (Nat.not_lt_zero j)) (fun h => UOutcome.noConfusion h)).1,
   (upsertDocument_retry_amended (fun _ => .fatal "boom") 0 (.jnum "1") [] []
      (fun j hj => absurd hj (Nat.not_lt_zero j)) (fun h => UOutcome.noConfusion h)).2.2
      "boom" rfl⟩

/-- Claim C7: `upsertDocument` computes the serialized length of
`{ id, vector, payload }`, stores it in the payload of the upserted point
under `_size`, warns exactly when that size exceeds the 10 KB threshold,
and performs the upsert regardless — no payload is rejected for size. -/
theorem upsertDocument_size_advisory (id : JsonVal) (vector : List String)
    (payload : List (String × JsonVal)) :
    upsertDocument (fun _ => .ok) 1 id vector payload =
      some (attemptEvents (dataSize id vector payload) 0,
            .ok ⟨id, vector, setField payload "_size"
                   (.jnum (toString (dataSize id vector payload)))⟩) ∧
    (UEvent.warnLarge (dataSize id vector payload) ∈
        attemptEvents (dataSize id vector payload) 0 ↔
      dataSize id vector payload > 10000) ∧
    (setField payload "_size"
        (.jnum (toString (dataSize id vector payload)))).lookup "_size" =
      some (.jnum (toString (dataSize id vector payload))) := by
  refine ⟨rfl, ?_, lookup_setField payload "_size" _⟩
  by_cases h : dataSize id vector payload > 10000 <;>
    simp [attemptEvents, h]

/-- Claim C6: when the collection exists, `searchSimilar` returns the
ranking of the server — at most `limit` results, scores non-increasing,
the payload of each hit taken verbatim from a stored point with that score;
when the collection does not exist the error propagates to the caller
instead of an empty sequence. -/
theorem searchSimilar_ranked (st : QdrantStore) (collectionName : String)
    (c : CollectionData) (vector : List Int) (limit : Nat)
    (h : st.lookup collectionName = some c) :
    searchSimilar st collectionName vector limit = .ok (qdrantSearch c.points vector limit) ∧
    (qdrantSearch c.points vector limit).length ≤ limit ∧
    List.Pairwise (fun a b : QSearchHit => b.score ≤ a.score)
      (qdrantSearch c.points vector limit) ∧
    (∀ hit ∈ qdrantSearch c.points vector limit, ∃ p ∈ c.points,
      hit.payload = p.payload ∧ hit.score = dotProduct vector p.vector) ∧
    (∀ (st2 : QdrantStore) (n2 : String), st2.lookup n2 = none →
      searchSimilar st2 n2 vector limit = .error "collection not found") := by
  refine ⟨by simp [searchSimilar, h], ?_, ?_, ?_, ?_⟩
  · exact List.length_take_le limit _
  · have hs := @List.sorted_mergeSort QSearchHit
      (fun a b => decide (b.score ≤ a.score))
      (fun a b c hab hbc => by
        simp only [decide_eq_true_eq] at *
        omega)
      (fun a b => by
        simp only [Bool.or_eq_true, decide_eq_true_eq]
        omega)
      (c.points.map fun p => QSearchHit.mk (dotProduct vector p.vector) p.payload)
    have hp : List.Pairwise (fun a b : QSearchHit => b.score ≤ a.score)
        ((c.points.map fun p => QSearchHit.mk (dotProduct vector p.vector) p.payload).mergeSort
          fun a b => decide (b.score ≤ a.score)) := by
      refine hs.imp ?_
      intro a b hab
      simpa using hab
    exact hp.sublist (List.take_sublist _ _)
  · intro hit hmem
    have hmem' : hit ∈ (c.points.map fun p =>
        QSearchHit.mk (dotProduct vector p.vector) p.payload).mergeSort
          fun a b => decide (b.score ≤ a.score) :=
      (List.take_sublist _ _).mem hmem
    have hmem'' : hit ∈ c.points.map fun p =>
        QSearchHit.mk (dotProduct vector p.vector) p.payload := by
      rw [List.mem_mergeSort] at hmem'
      exact hmem'
    rcases List.mem_map.mp hmem'' with ⟨p, hp, hpe⟩
    exact ⟨p, hp, by rw [← hpe], by rw [← hpe]⟩
  · intro st2 n2 h2
    simp [searchSimilar, h2]

/-- Witness for C6 on a one-point collection: the search succeeds with
the server ranking, and the nonexistent-collection branch errors. -/
theorem searchSimilar_ranked_witness :
    searchSimilar [("github_code",
        (⟨1024, "Cosine", [⟨1, [1, 0], [("content", JsonVal.jstr "x")]⟩]⟩ : CollectionData))]
      "github_code" [2, 1] 5 =
      .ok (qdrantSearch [⟨1, [1, 0], [("content", JsonVal.jstr "x")]⟩] [2, 1] 5) ∧
    (qdrantSearch [⟨1, [1, 0], [("content", JsonVal.jstr "x")]⟩] [2, 1] 5).length ≤ 5 ∧
    List.Pairwise (fun a b : QSearchHit => b.score ≤ a.score)
      (qdrantSearch [⟨1, [1, 0], [("content", JsonVal.jstr "x")]⟩] [2, 1] 5) ∧
    (∀ hit ∈ qdrantSearch [⟨1, [1, 0], [("content", JsonVal.jstr "x")]⟩] [2, 1] 5,
      ∃ p ∈ [QPoint.mk 1 [1, 0] [("content", JsonVal.jstr "x")]],
        hit.payload = p.payload ∧ hit.score = dotProduct [2, 1] p.vector) ∧
    (∀ (st2 : QdrantStore) (n2 : String), st2.lookup n2 = none →
      searchSimilar st2 n2 [2, 1] 5 = .error "collection not found") :=
  searchSimilar_ranked
    [("github_code", (⟨1024, "Cosine", [⟨1, [1, 0], [("content", JsonVal.jstr "x")]⟩]⟩ : CollectionData))]
    "github_code"
    ⟨1024, "Cosine", [⟨1, [1, 0], [("content", JsonVal.jstr "x")]⟩]⟩
    [2, 1] 5 rfl

theorem splitWindowsGo_ne_nil (chunkSize step : Nat) (fuel : Nat) (xs : List α) :
    splitWindowsGo chunkSize step fuel xs ≠ [] := by
  cases fuel with
  | zero => simp [splitWindowsGo]
  | succ fuel =>
    by_cases h : xs.length ≤ chunkSize <;> simp [splitWindowsGo, h]

theorem splitWindowsGo_getD (chunkSize step : Nat) (hstep : 0 < step) :
    ∀ (fuel : Nat) (xs : List α), xs.length ≤ fuel →
      ∀ i : Nat, i < (splitWindowsGo chunkSize step fuel xs).length →
        (splitWindowsGo chunkSize step fuel xs).getD i [] =
          (xs.drop (step * i)).take chunkSize := by
  intro fuel
  induction fuel with
  | zero =>
    intro xs hlen i hi
    have hnil : xs = [] := List.eq_nil_of_length_eq_zero (Nat.le_zero.mp hlen)
    subst hnil
    simp only [splitWindowsGo, List.length_singleton] at hi
    interval_cases i
    simp [splitWindowsGo]
  | succ fuel ih =>
    intro xs hlen i hi
    by_cases h : xs.length ≤ chunkSize
    · simp only [splitWindowsGo, h, if_true, List.length_singleton] at hi
      interval_cases i
      simp [splitWindowsGo, h, List.take_of_length_le h]
    · have hsplit : splitWindowsGo chunkSize step (fuel + 1) xs =
          xs.take chunkSize :: splitWindowsGo chunkSize step fuel (xs.drop step) := by
        simp [splitWindowsGo, h]
      rw [hsplit] at hi ⊢
      cases i with
      | zero => simp
      | succ i =>
        have hlen2 : (xs.drop step).length ≤ fuel := by
          rw [List.length_drop]
          omega
        have hi2 : i < (splitWindowsGo chunkSize step fuel (xs.drop step)).length := by
          simpa using hi
        have hrec := ih (xs.drop step) hlen2 i hi2
        simp only [List.getD_cons_succ, hrec, List.drop_drop]
        congr 2
        ring

theorem splitWindowsGo_coverage (chunkSize step : Nat) (hstep : 0 < step)
    (hstep2 : step ≤ chunkSize) :
    ∀ (fuel : Nat) (xs : List α), xs.length ≤ fuel →
      ∃ n : Nat, (splitWindowsGo chunkSize step fuel xs).length = n + 1 ∧
        (splitWindowsGo chunkSize step fuel xs).getLastD [] = xs.drop (step * n) ∧
        xs.length ≤ step * n + chunkSize := by
  intro fuel
  induction fuel with
  | zero =>
    intro xs hlen
    have hnil : xs = [] := List.eq_nil_of_length_eq_zero (Nat.le_zero.mp hlen)
    subst hnil
    exact ⟨0, by simp [splitWindowsGo], by simp [splitWindowsGo], by simp⟩
  | succ fuel ih =>
    intro xs hlen
    by_cases h : xs.length ≤ chunkSize
    · exact ⟨0, by simp [splitWindowsGo, h], by simp [splitWindowsGo, h], by simpa using h⟩
    · have hsplit : splitWindowsGo chunkSize step (fuel + 1) xs =
          xs.take chunkSize :: splitWindowsGo chunkSize step fuel (xs.drop step) := by
        simp [splitWindowsGo, h]
      have hlen2 : (xs.drop step).length ≤ fuel := by
        rw [List.length_drop]
        omega
      rcases ih (xs.drop step) hlen2 with ⟨n, hn, hlast, hcov⟩
      refine ⟨n + 1, ?_, ?_, ?_⟩
      · rw [hsplit]
        simp [hn]
      · rw [hsplit]
        have hne := splitWindowsGo_ne_nil chunkSize step fuel (xs.drop step)
        rw [List.getLastD_cons]
        rw [show (splitWindowsGo chunkSize step fuel (xs.drop step)).getLastD (xs.take chunkSize)
              = (splitWindowsGo chunkSize step fuel (xs.drop step)).getLastD [] from by
          simp [List.getLastD_eq_getLast?, List.getLast?_eq_getLast _ hne]]
        rw [hlast, List.drop_drop]
        congr 1
        ring
      · rw [List.length_drop] at hcov
        have hx : step * (n + 1) = step * n + step := by ring
        omega

theorem splitWindowsGo_cons (chunkSize step fuel : Nat) (xs : List α)
    (h : chunkSize < xs.length) (hf : 0 < fuel) :
    splitWindowsGo chunkSize step fuel xs =
      xs.take chunkSize :: splitWindowsGo chunkSize step (fuel - 1) (xs.drop step) := by
  cases fuel with
  | zero => exact absurd hf (by omega)
  | succ fuel => simp [splitWindowsGo, Nat.not_le.mpr h]

theorem splitWindowsGo_base (chunkSize step fuel : Nat) (xs : List α)
    (h : xs.length ≤ chunkSize) (hf : 0 < fuel) :
    splitWindowsGo chunkSize step fuel xs = [xs] := by
  cases fuel with
  | zero => exact absurd hf (by omega)
  | succ fuel => simp [splitWindowsGo, h]

/-- Claim C2: the chunker emits windows of 1000 tokens whose starts
advance by 1000 − 200 = 800 (the `i`-th chunk is tokens
`[800·i, 800·i+1000)`), the final window reaches the end of the content
and may be shorter; a 2500-token document yields exactly 3 chunks with
token ranges `[0,1000)`, `[800,1800)`, `[1600,2500)`; and every chunk
`processDocuments` emits carries the metadata of its source document
unchanged. -/
theorem processDocuments_chunk_windows :
    (∀ (α : Type) (xs : List α) (i : Nat), i < (splitTokens xs 1000 200).length →
      (splitTokens xs 1000 200).getD i [] = (xs.drop (800 * i)).take 1000) ∧
    (∀ (α : Type) (xs : List α), ∃ n : Nat,
      (splitTokens xs 1000 200).length = n + 1 ∧
      (splitTokens xs 1000 200).getLastD [] = xs.drop (800 * n) ∧
      xs.length ≤ 800 * n + 1000) ∧
    (∀ (α : Type) (xs : List α), xs.length = 2500 →
      splitTokens xs 1000 200 =
        [xs.take 1000, (xs.drop 800).take 1000, xs.drop 1600]) ∧
    (∀ (α μ : Type) (docs : List (SrcDocument α μ)) (c : SrcDocument α μ),
      c ∈ processDocuments docs → ∃ d ∈ docs, c.metadata = d.metadata ∧
        c.pageContent ∈ splitTokens d.pageContent 1000 200) := by
  refine ⟨?_, ?_, ?_, ?_⟩
  · intro α xs i hi
    exact splitWindowsGo_getD 1000 800 (by omega) xs.length xs le_rfl i hi
  · intro α xs
    exact splitWindowsGo_coverage 1000 800 (by omega) (by omega) xs.length xs le_rfl
  · intro α xs hlen
    show splitWindowsGo 1000 800 xs.length xs = _
    rw [hlen]
    rw [splitWindowsGo_cons 1000 800 2500 xs (by omega) (by omega)]
    rw [splitWindowsGo_cons 1000 800 (2500 - 1) (xs.drop 800)
      (by rw [List.length_drop, hlen]; omega) (by omega)]
    rw [List.drop_drop]
    rw [splitWindowsGo_base 1000 800 (2500 - 1 - 1) (xs.drop (800 + 800))
      (by rw [List.length_drop, hlen]; omega) (by omega)]
  · intro α μ docs c hc
    simp only [processDocuments, List.mem_flatMap, List.mem_map] at hc
    rcases hc with ⟨d, hd, w, hw, hwc⟩
    exact ⟨d, hd, by rw [← hwc], by rw [← hwc]; exact hw⟩

/-- Witness for C2: the 2500-token scenario at `List.range 2500`, and a
2-token document whose single chunk keeps its metadata. -/
theorem processDocuments_chunk_windows_witness :
    splitTokens (List.range 2500) 1000 200 =
      [(List.range 2500).take 1000, ((List.range 2500).drop 800).take 1000,
       (List.range 2500).drop 1600] ∧
    (∃ d ∈ [SrcDocument.mk ([0, 1] : List Nat) (7 : Nat)],
      (SrcDocument.mk ([0, 1] : List Nat) (7 : Nat)).metadata = d.metadata ∧
      (SrcDocument.mk ([0, 1] : List Nat) (7 : Nat)).pageContent ∈
        splitTokens d.pageContent 1000 200) :=
  ⟨processDocuments_chunk_windows.2.2.1 Nat (List.range 2500) (by simp),
   processDocuments_chunk_windows.2.2.2 Nat Nat
     [SrcDocument.mk [0, 1] 7] (SrcDocument.mk [0, 1] 7) (by decide)⟩

theorem indexRepositories_append (run : String → String → Except String (List δ)) :
    ∀ (xs ys : List RepoConfig),
      indexRepositories run (xs ++ ys) =
        ((indexRepositories run xs).1 ++ (indexRepositories run ys).1,
         (indexRepositories run xs).2 ++ (indexRepositories run ys).2) := by
  intro xs ys
  induction xs with
  | nil => simp [indexRepositories]
  | cons repo rest ih => simp [indexRepositories, ih]

/-- Claim C4: a failure while indexing repository `r` is caught and
logged with the repository name, and the repositories after it are still
processed — the documents of the run decompose as the documents of the
repositories before `r`, the own contribution of `r`, then the documents
of the repositories after `r`, whatever the outcome of `r`; a config entry
failing validation (in particular one missing `name` or `url`) is
individually skipped with a warning and contributes nothing. -/
theorem indexRepositories_isolation :
    (∀ (δ : Type) (run : String → String → Except String (List δ))
        (pre : List RepoConfig) (r : RepoConfig) (post : List RepoConfig),
      indexRepositories run (pre ++ r :: post) =
        ((indexRepositories run pre).1 ++ (indexOne run r).1 ++
           (indexRepositories run post).1,
         (indexRepositories run pre).2 ++ (indexOne run r).2 ++
           (indexRepositories run post).2)) ∧
    (∀ (δ : Type) (run : String → String → Except String (List δ)) (r : RepoConfig),
      validateRepoConfig r = false → indexOne run r = ([], [.skipInvalid r])) ∧
    (∀ (δ : Type) (run : String → String → Except String (List δ)) (r : RepoConfig) (m : String),
      validateRepoConfig r = true → run (r.url.getD "") (r.name.getD "") = .error m →
      indexOne run r = ([], [.indexFailed (r.name.getD "") m])) ∧
    (∀ r : RepoConfig, r.name = none ∨ r.url = none → validateRepoConfig r = false) := by
  refine ⟨?_, ?_, ?_, ?_⟩
  · intro δ run pre r post
    rw [indexRepositories_append]
    simp [indexRepositories, List.append_assoc]
  · intro δ run r h
    simp [indexOne, h]
  · intro δ run r m hv he
    simp [indexOne, hv, he]
  · intro r h
    rcases h with h | h <;> simp [validateRepoConfig, jsTruthy, h]

/-- Witness for C4: with the indexing of the middle repository throwing,
the documents of the first and third repositories both appear, and the failure and
an invalid entry are logged. -/
theorem indexRepositories_isolation_witness :
    indexRepositories
        (fun _ n => if n = "b" then .error "boom" else .ok [n])
        ([⟨some "a", some "u"⟩] ++ (⟨some "b", some "u"⟩ : RepoConfig) :: [⟨some "c", some "u"⟩]) =
      ((indexRepositories (fun _ n => if n = "b" then .error "boom" else .ok [n])
          [⟨some "a", some "u"⟩]).1 ++
         (indexOne (fun _ n => if n = "b" then .error "boom" else .ok [n])
            ⟨some "b", some "u"⟩).1 ++
         (indexRepositories (fun _ n => if n = "b" then .error "boom" else .ok [n])
            [⟨some "c", some "u"⟩]).1,
       (indexRepositories (fun _ n => if n = "b" then .error "boom" else .ok [n])
          [⟨some "a", some "u"⟩]).2 ++
         (indexOne (fun _ n => if n = "b" then .error "boom" else .ok [n])
            ⟨some "b", some "u"⟩).2 ++
         (indexRepositories (fun _ n => if n = "b" then .error "boom" else .ok [n])
            [⟨some "c", some "u"⟩]).2) ∧
    indexOne (fun _ n : String => (Except.ok [n] : Except String (List String)))
        ⟨none, some "u"⟩ = ([], [.skipInvalid ⟨none, some "u"⟩]) ∧
    indexOne (fun _ n => if n = "b" then .error "boom" else .ok [n])
        ⟨some "b", some "u"⟩ = ([], [.indexFailed "b" "boom"]) ∧
    validateRepoConfig ⟨none, some "u"⟩ = false :=
  ⟨indexRepositories_isolation.1 String (fun _ n => if n = "b" then .error "boom" else .ok [n])
      [⟨some "a", some "u"⟩] ⟨some "b", some "u"⟩ [⟨some "c", some "u"⟩],
   indexRepositories_isolation.2.1 String (fun _ n => (Except.ok [n] : Except String (List String)))
      ⟨none, some "u"⟩ (by decide),
   indexRepositories_isolation.2.2.1 String
      (fun _ n => if n = "b" then .error "boom" else .ok [n])
      ⟨some "b", some "u"⟩ "boom" (by decide) rfl,
   indexRepositories_isolation.2.2.2 ⟨none, some "u"⟩ (Or.inl rfl)⟩

/-- Counterexample for C5: on the CLI query path of src/ask.js an empty
search result list is not turned into a distinct no-results outcome —
the handler silently calls the generation service with the empty context
string. -/
theorem handleQuestion_counterexample :
    handleQuestion "hi" (.ok [1]) (fun _ => .ok []) (fun _ _ => .ok "answer") =
      ⟨true, some "", false⟩ ∧
    buildContextCli [] = "" :=
  ⟨rfl, rfl⟩

/-- Claim C5 (amended): on the HTTP `/ask` path an empty search result
sequence terminates the request with the distinct 404 "no relevant
information" response — no exception, and the generation service is not
called — while the CLI path of src/ask.js proceeds to call the
generation service with the empty context. -/
theorem askHandler_empty_results (q : String) (v : List Int)
    (generate : String → String → Except String String)
    (hq : (jsTrim q).isEmpty = false) :
    askHandler (some q) (.ok v) (fun _ _ => .ok []) generate = (.notFound, false) ∧
    statusOf .notFound = 404 ∧
    (∀ m, statusOf (.serverError m) = 500) ∧
    (∀ generateCli : String → String → Except String String, ∀ w : List Int,
      (handleQuestion q (.ok w) (fun _ => .ok []) generateCli).llmCalled = true ∧
      (handleQuestion q (.ok w) (fun _ => .ok []) generateCli).contextArg = some "") := by
  refine ⟨?_, rfl, fun m => rfl, ?_⟩
  · simp [askHandler, hq]
  · intro generateCli w
    simp only [handleQuestion]
    cases generateCli q (buildContextCli []) <;> exact ⟨rfl, rfl⟩

/-- Witness for C5 (amended) at the question `hi`. -/
theorem askHandler_empty_results_witness :
    askHandler (some "hi") (.ok [1]) (fun _ _ => .ok [])
        (fun _ _ => .ok "answer") = (.notFound, false) ∧
    statusOf .notFound = 404 ∧
    (∀ m, statusOf (.serverError m) = 500) ∧
    (∀ generateCli : String → String → Except String String, ∀ w : List Int,
      (handleQuestion "hi" (.ok w) (fun _ => .ok []) generateCli).llmCalled = true ∧
      (handleQuestion "hi" (.ok w) (fun _ => .ok []) generateCli).contextArg = some "") :=
  askHandler_empty_results "hi" [1] (fun _ _ => .ok "answer") (by decide)

/-- Claim C9: after a first successful `initialize` from an
uninitialized state, `isReady` is true, and every further `initialize`
call — whatever the load oracle would now return — changes nothing,
reports success, and does not reload the model, so `isReady` stays
true. -/
theorem initializeProcessor_idempotent (s0 : DPState) (e : Nat)
    (h : s0.isInitialized = false) :
    (initializeProcessor (.ok e) s0).state = ⟨true, some e⟩ ∧
    isReady ⟨true, some e⟩ = true ∧
    (∀ load : Except String Nat,
      initializeProcessor load ⟨true, some e⟩ = ⟨⟨true, some e⟩, .ok (), false⟩) := by
  refine ⟨?_, rfl, fun load => rfl⟩
  simp [initializeProcessor, h]

/-- Witness for C9 from the freshly constructed state
(`isInitialized: false`, `embedder: null`). -/
theorem initializeProcessor_idempotent_witness :
    (initializeProcessor (.ok 7) ⟨false, none⟩).state = ⟨true, some 7⟩ ∧
    isReady ⟨true, some 7⟩ = true ∧
    (∀ load : Except String Nat,
      initializeProcessor load ⟨true, some 7⟩ = ⟨⟨true, some 7⟩, .ok (), false⟩) :=
  initializeProcessor_idempotent ⟨false, none⟩ 7 rfl
